import Mathlib

/-!
Verification development for the pb-nebula repository (Go).

The file shallowly embeds the parts of the source that the specification's
claims are about:

* `internal/ipam/ipam.go`            — `NextAvailableIP` (first-fit IPv4 allocation)
* `internal/cert/manager.go`         — `GenerateCA`, `GenerateHostCert`
* `internal/crypto` (GenerateAuthority / GenerateNode, the parallel generation
  of the same library present in the repository)
* `internal/types/types.go`          — firewall-rule JSON decoding (`GetFirewallRules`)
* `internal/config` generator        — `GenerateHostConfig`, `buildStaticHostMap`,
  `buildLighthouseConfig`, `extractPort`
* `internal/sync/manager.go`         — `getLighthouses`, `generateHostConfig`
  (record update), and the host-update hook of `setupHostHooks`

Machine integers are modelled as `Nat` with explicit `% 2^32` where Go's
`uint32` arithmetic can wrap.  External collaborators (the nebula `cert`
signer, `netip` string parsing, JSON decoding, PEM marshalling) are modelled
as small inductive data types: a parsed or marshalled value is represented by
the value itself, so `Marshal`/`Unmarshal` round-trip by construction, which
is exactly the spec's treatment of them as an opaque Signer capability.
-/

deriving instance DecidableEq for Except

/-- `2^32`: the modulus of Go's `uint32` arithmetic used throughout
`internal/ipam/ipam.go`. -/
def u32 : Nat := 4294967296

/-- An input string handed to the `net/netip` parsers, abstracted by what it
parses as.  `addr4 v` is a bare IPv4 address of numeric value `v` (the value
`ipToUint32` would produce); `cidr4 v b` is an IPv4 CIDR string `"x.x.x.x/b"`
whose address component has value `v`; `addr6`/`cidr6` are the corresponding
IPv6 forms; `malformed` is any string rejected by both parsers.  Constructor
arguments outside the representable range correspond to no real string and
are rejected by the parse functions below. -/
inductive IPInput where
  | addr4 (v : Nat)
  | addr6 (v : Nat)
  | cidr4 (v : Nat) (bits : Nat)
  | cidr6 (v : Nat) (bits : Nat)
  | malformed
deriving DecidableEq

/-- `netip.ParseAddr` followed by the `Is4()` check, returning the `uint32`
value of the address (`ipToUint32`). -/
def parseAddr4 : IPInput → Option Nat
  | .addr4 v => if v < u32 then some v else none
  | _ => none

/-- `netip.ParsePrefix` followed by the `Is4()` check, returning the address
value of `prefix.Addr()` (NOT masked — `ParsePrefix` keeps the address as
written) and `prefix.Bits()`. -/
def parseCidr4 : IPInput → Option (Nat × Nat)
  | .cidr4 v b => if v < u32 ∧ b ≤ 32 then some (v, b) else none
  | _ => none

/-- One entry of the used-address map built at the top of `NextAvailableIP`:
try `ParseAddr` (and `Is4`), else try `ParsePrefix` (and `Is4`) and keep only
the address component; anything else is silently skipped. -/
def usedEntryAddr (e : IPInput) : Option Nat :=
  match parseAddr4 e with
  | some ip => some ip
  | none =>
    match parseCidr4 e with
    | some p => some p.1
    | none => none

/-- The used-address map of `NextAvailableIP` (a set of `uint32` values). -/
def usedSet (usedIPs : List IPInput) : List Nat :=
  usedIPs.filterMap usedEntryAddr

/-- The scan loop of `NextAvailableIP`: starting at offset `i`, with `fuel`
iterations remaining (the Go loop `for i := 1; i < size-1; i++` performs
`size-2` iterations), return the first offset whose candidate address
`(start + i) mod 2^32` is not in the used map. -/
def scanOffsets (start : Nat) (used : List Nat) (i fuel : Nat) : Option Nat :=
  match fuel with
  | 0 => none
  | Nat.succ f =>
    if ((start + i) % u32) ∈ used then scanOffsets start used (i + 1) f
    else some i

/-- Errors of `NextAvailableIP` (`invalid cidr`, `ipv6 ipam not yet
implemented`, `subnet ... is exhausted`). -/
inductive IpamError where
  | invalidCidr
  | ipv6NotImplemented
  | exhausted
deriving DecidableEq

/-- `ipam.NextAvailableIP`.  The result models the returned string
`fmt.Sprintf("%s/%d", res, prefix.Bits())` as the pair (address value,
prefix bits).  `size` is `uint32(1 << (32 - bits))` — note the cast wraps to
`0` for a `/0` prefix — and the loop bound `size - 1` is `uint32`
subtraction, hence the explicit `% 2^32` wrap. -/
def nextAvailableIP : IPInput → List IPInput → Except IpamError (Nat × Nat)
  | .cidr4 a bits, usedIPs =>
    if a < u32 ∧ bits ≤ 32 then
      match scanOffsets a (usedSet usedIPs) 1
          (((2 ^ (32 - bits) % u32) + u32 - 1) % u32 - 1) with
      | some i => .ok ((a + i) % u32, bits)
      | none => .error .exhausted
    else .error .invalidCidr
  | .cidr6 v b, _ =>
    if v < 2 ^ 128 ∧ b ≤ 128 then .error .ipv6NotImplemented
    else .error .invalidCidr
  | .addr4 _, _ => .error .invalidCidr
  | .addr6 _, _ => .error .invalidCidr
  | .malformed, _ => .error .invalidCidr

/-- Concrete used list for the C2 witness: a bare address, a CIDR-annotated
address and an unparseable entry; offsets 1 and 2 of `10.0.0.0/24` are taken,
offset 3 is free. -/
def c2used : List IPInput :=
  [.addr4 167772161, .cidr4 167772162 24, .malformed]

/-- Timestamps, modelled as seconds (an `Int`, so arithmetic never wraps —
Go's `time.Time` does not overflow in practice).  Calendar arithmetic of
`AddDate` is modelled with a fixed-length year; no claim depends on the
length of a year. -/
abbrev Time := Int

/-- Seconds in the fixed-length model year used for `AddDate(years, 0, 0)`. -/
def yearLen : Int := 31536000

/-- `t.AddDate(years, 0, 0)`. -/
def addDateYears (t : Time) (years : Int) : Time := t + years * yearLen

/-- The only curve the library supports (`nebulacert.Curve_CURVE25519`). -/
inductive Curve where
  | curve25519
deriving DecidableEq

/-- A parsed `netip.Addr`: family flag (`Is4`) plus numeric value. -/
structure Addr where
  is4 : Bool
  val : Nat
deriving DecidableEq

/-- `netip.Addr.BitLen()`: 32 for IPv4, 128 for IPv6. -/
def Addr.bitLen (a : Addr) : Nat := if a.is4 then 32 else 128

/-- A parsed `netip.Prefix`: address plus prefix bits. -/
structure IpNet where
  addr : Addr
  bits : Nat
deriving DecidableEq

/-- `netip.ParseAddr` (any family). -/
def parseAddrAny : IPInput → Option Addr
  | .addr4 v => if v < u32 then some ⟨true, v⟩ else none
  | .addr6 v => if v < 2 ^ 128 then some ⟨false, v⟩ else none
  | _ => none

/-- `netip.ParsePrefix` (any family). -/
def parseCidrAny : IPInput → Option IpNet
  | .cidr4 v b => if v < u32 ∧ b ≤ 32 then some ⟨⟨true, v⟩, b⟩ else none
  | .cidr6 v b => if v < 2 ^ 128 ∧ b ≤ 128 then some ⟨⟨false, v⟩, b⟩ else none
  | _ => none

/-- A freshly generated key pair from the external crypto collaborator
(`ed25519.GenerateKey` / `generateNodeKeypair`); keys are abstract values.
The pair is passed into the generation functions, modelling the randomness
source. -/
structure KeyPair where
  pub : Nat
  priv : Nat
deriving DecidableEq

/-- `nebulacert.TBSCertificate` — the to-be-signed certificate template. -/
structure TBSCertificate where
  version : Nat
  name : String
  networks : List IpNet
  groups : List String
  isCA : Bool
  notBefore : Time
  notAfter : Time
  publicKey : Nat
  curve : Curve
deriving DecidableEq

/-- A signed nebula certificate.  The external signer is modelled
structurally: `issuer` records the signer certificate's contents (`none` for
a self-signed certificate, where Go passes `nil`), and `signKey` the private
key the signature was produced with.  "The issuer resolves to the CA" is the
statement `issuer = some caCert.tbs`. -/
structure Certificate where
  tbs : TBSCertificate
  issuer : Option TBSCertificate
  signKey : Nat
deriving DecidableEq

/-- `tbs.Sign(signer, curve, key)` of the nebula cert collaborator. -/
def signCert (tbs : TBSCertificate) (signer : Option Certificate)
    (key : Nat) : Certificate :=
  { tbs := tbs, issuer := signer.map Certificate.tbs, signKey := key }

/-- `Certificate.Expired(t)` of the nebula cert collaborator: `t` outside
`[NotBefore, NotAfter]`. -/
def certExpired (c : Certificate) (t : Time) : Bool :=
  decide (t < c.tbs.notBefore) || decide (c.tbs.notAfter < t)

/-- A PEM blob, abstracted by what it unmarshals to: a marshalled
certificate, a marshalled Ed25519 signing key, a marshalled X25519 node key,
or garbage.  Marshal/parse round-trip by construction (spec §8). -/
inductive Pem where
  | cert (c : Certificate)
  | signingKey (k : Nat)
  | nodeKey (k : Nat)
  | garbage
deriving DecidableEq

/-- `nebulacert.UnmarshalCertificateFromPEM`. -/
def unmarshalCertificateFromPEM : Pem → Option Certificate
  | .cert c => some c
  | _ => none

/-- `nebulacert.UnmarshalSigningPrivateKeyFromPEM`. -/
def unmarshalSigningPrivateKeyFromPEM : Pem → Option Nat
  | .signingKey k => some k
  | _ => none

/-- `cert.CAResult`. -/
structure CAResult where
  certificatePEM : Pem
  privateKeyPEM : Pem
  expiresAt : Time
deriving DecidableEq

/-- `cert.HostCertResult`. -/
structure HostCertResult where
  certificatePEM : Pem
  privateKeyPEM : Pem
  expiresAt : Time
deriving DecidableEq

/-- `cert.HostCertParams`. -/
structure HostCertParams where
  hostname : String
  overlayIP : IPInput
  groups : List String
  validityYears : Int
  caCertPEM : Pem
  caPrivateKeyPEM : Pem
  caExpiresAt : Time
deriving DecidableEq

/-- `cert.Manager.GenerateCA` (internal/cert/manager.go).  `now` models
`time.Now()`, `kp` the freshly generated Ed25519 pair.  Key generation and
signing failures of the external primitives are not modelled (they abort with
an error in Go and produce no certificate). -/
def generateCA (name : String) (validityYears : Int) (now : Time)
    (kp : KeyPair) : CAResult :=
  let notBefore := now
  let notAfter := addDateYears now validityYears
  let tbs : TBSCertificate :=
    { version := 2, name := name, networks := [], groups := [], isCA := true,
      notBefore := notBefore, notAfter := notAfter, publicKey := kp.pub,
      curve := .curve25519 }
  -- Self-sign the CA certificate (signer is nil for self-signed)
  let certificate := signCert tbs none kp.priv
  { certificatePEM := .cert certificate,
    privateKeyPEM := .signingKey kp.priv,
    expiresAt := notAfter }

/-- Errors of `GenerateHostCert`. -/
inductive CertError where
  | caCertParse
  | caKeyParse
  | invalidOverlayIP
deriving DecidableEq

/-- `cert.Manager.GenerateHostCert` (internal/cert/manager.go): parse CA
certificate, parse CA key, generate host key pair (`kp`), parse overlay IP,
build the `/BitLen` single-address prefix, cap the expiry at the CA expiry,
sign with the CA. -/
def generateHostCert (params : HostCertParams) (now : Time) (kp : KeyPair) :
    Except CertError HostCertResult :=
  match unmarshalCertificateFromPEM params.caCertPEM with
  | none => .error .caCertParse
  | some caCert =>
    match unmarshalSigningPrivateKeyFromPEM params.caPrivateKeyPEM with
    | none => .error .caKeyParse
    | some caKey =>
      match parseAddrAny params.overlayIP with
      | none => .error .invalidOverlayIP
      | some addr =>
        -- Create /32 prefix from IP (single host): PrefixFrom(addr, addr.BitLen())
        let overlayNet : IpNet := ⟨addr, addr.bitLen⟩
        -- Calculate expiration - min of requested or CA expiration
        let requestedExpiry := addDateYears now params.validityYears
        let expiresAt :=
          if params.caExpiresAt < requestedExpiry then params.caExpiresAt
          else requestedExpiry
        let tbs : TBSCertificate :=
          { version := 2, name := params.hostname, networks := [overlayNet],
            groups := params.groups, isCA := false, notBefore := now,
            notAfter := expiresAt, publicKey := kp.pub, curve := .curve25519 }
        .ok { certificatePEM := .cert (signCert tbs (some caCert) caKey),
              privateKeyPEM := .nodeKey kp.priv,
              expiresAt := expiresAt }

/-- `crypto.Artifacts`. -/
structure Artifacts where
  certPEM : Pem
  keyPEM : Pem
deriving DecidableEq

/-- Errors of the `crypto` package generators. -/
inductive CryptoError where
  | invalidCidr
  | invalidNodeIP
  | caKeyParse
  | caCertParse
  | caExpired
deriving DecidableEq

/-- `crypto.GenerateAuthority` (the repository's parallel crypto package):
parses the CIDR and embeds it as the CA certificate's network, self-signs
with a fresh Ed25519 key; the validity window is fixed
(`now - 1min`, `now + 87600h`). -/
def generateAuthority (name : String) (cidr : IPInput) (now : Time)
    (kp : KeyPair) : Except CryptoError Artifacts :=
  match parseCidrAny cidr with
  | none => .error .invalidCidr
  | some ipNet =>
    let tbs : TBSCertificate :=
      { version := 2, name := name, networks := [ipNet], groups := [],
        isCA := true, notBefore := now - 60, notAfter := now + 87600 * 3600,
        publicKey := kp.pub, curve := .curve25519 }
    .ok { certPEM := .cert (signCert tbs none kp.priv),
          keyPEM := .signingKey kp.priv }

/-- `crypto.GenerateNode`: parses the node IP **as a prefix** (`ParsePrefix` —
a bare address string fails), loads the CA key and certificate, rejects an
expired CA, and embeds the parsed prefix unchanged as the node certificate's
network. -/
def generateNode (caCertPEM caKeyPEM : Pem) (name : String) (ip : IPInput)
    (groups : List String) (now : Time) (kp : KeyPair) :
    Except CryptoError Artifacts :=
  match parseCidrAny ip with
  | none => .error .invalidNodeIP
  | some nodeNet =>
    match unmarshalSigningPrivateKeyFromPEM caKeyPEM with
    | none => .error .caKeyParse
    | some caKey =>
      match unmarshalCertificateFromPEM caCertPEM with
      | none => .error .caCertParse
      | some caCert =>
        if certExpired caCert now then .error .caExpired
        else
          let tbs : TBSCertificate :=
            { version := 2, name := name, networks := [nodeNet],
              groups := groups, isCA := false, notBefore := now - 60,
              notAfter := caCert.tbs.notAfter - 1, publicKey := kp.pub,
              curve := .curve25519 }
          .ok { certPEM := .cert (signCert tbs (some caCert) caKey),
                keyPEM := .nodeKey kp.priv }

/-- The concrete CA certificate used by several concrete instantiations. -/
def ca0 : Certificate :=
  { tbs :=
      { version := 2, name := "ca", networks := [], groups := [],
        isCA := true, notBefore := 0, notAfter := 1000, publicKey := 5,
        curve := .curve25519 },
    issuer := none, signKey := 7 }

/-- Concrete host-certificate parameters for the C1 witness. -/
def c1params : HostCertParams :=
  { hostname := "web-01", overlayIP := .addr4 176160868, groups := ["web"],
    validityYears := 1, caCertPEM := .cert ca0,
    caPrivateKeyPEM := .signingKey 7, caExpiresAt := 1000 }

/-- The result `GenerateHostCert` produces for `c1params` at `now = 0`. -/
def c1result : HostCertResult :=
  { certificatePEM := .cert
      { tbs :=
          { version := 2, name := "web-01",
            networks := [⟨⟨true, 176160868⟩, 32⟩], groups := ["web"],
            isCA := false, notBefore := 0, notAfter := 1000, publicKey := 3,
            curve := .curve25519 },
        issuer := some ca0.tbs, signKey := 7 },
    privateKeyPEM := .nodeKey 4, expiresAt := 1000 }

/-- The artifacts `GenerateAuthority` produces for `10.128.0.0/16` at
`now = 0` with key pair `(1, 2)`. -/
def c4auth : Artifacts :=
  { certPEM := .cert
      { tbs :=
          { version := 2, name := "ca2",
            networks := [⟨⟨true, 176160768⟩, 16⟩], groups := [], isCA := true,
            notBefore := -60, notAfter := 315360000, publicKey := 1,
            curve := .curve25519 },
        issuer := none, signKey := 2 },
    keyPEM := .signingKey 2 }

/-- Concrete parameters for the C5 witness: a parseable overlay address. -/
def c5params : HostCertParams :=
  { hostname := "db-01", overlayIP := .addr4 176160869, groups := ["db"],
    validityYears := 1, caCertPEM := .cert ca0,
    caPrivateKeyPEM := .signingKey 7, caExpiresAt := 1000 }

/-- Concrete parameters for the C5 witness: an unparseable overlay address. -/
def c5bad : HostCertParams :=
  { hostname := "db-02", overlayIP := .malformed, groups := [],
    validityYears := 1, caCertPEM := .cert ca0,
    caPrivateKeyPEM := .signingKey 7, caExpiresAt := 1000 }

/-- The artifacts `GenerateNode` produces for `10.0.0.6/24` signed by `ca0`
at `now = 100` with key pair `(3, 4)`. -/
def c5node : Artifacts :=
  { certPEM := .cert
      { tbs :=
          { version := 2, name := "app-01",
            networks := [⟨⟨true, 167772166⟩, 24⟩], groups := ["app"],
            isCA := false, notBefore := 40, notAfter := 999, publicKey := 3,
            curve := .curve25519 },
        issuer := some ca0.tbs, signKey := 7 },
    keyPEM := .nodeKey 4 }

/-- A firewall rule as decoded from JSON into `map[string]interface{}`:
JSON decoding succeeds for any object, so only the presence/content of the
fields the system ever reads is modelled (`port`, `proto`, `host`, `groups`);
a `none` field is absent from the object.  Nothing validates these values —
that is exactly what claim C8 is about. -/
structure FwRule where
  port : Option String
  proto : Option String
  host : Option String
  groups : Option (List String)
deriving DecidableEq

/-- The raw content of a firewall JSON field (`firewall_outbound` /
`firewall_inbound`), abstracted by what `json.Unmarshal` does with it:
the empty string and the literal `"null"` are skipped by `GetFirewallRules`,
a well-formed JSON array of objects decodes to its rules, and anything else
makes `json.Unmarshal` fail. -/
inductive FwField where
  | empty
  | nullLit
  | rules (rs : List FwRule)
  | invalid
deriving DecidableEq

/-- Config-generation errors (`failed to parse firewall rules`). -/
inductive ConfigError where
  | fwParse
deriving DecidableEq

/-- One field of `GetFirewallRules` (internal/types/types.go): skip `""` and
`"null"` (leaving the slice nil), otherwise `json.Unmarshal`. -/
def decodeFwRules : FwField → Except ConfigError (List FwRule)
  | .empty => .ok []
  | .nullLit => .ok []
  | .rules rs => .ok rs
  | .invalid => .error .fwParse

/-- `GetFirewallRules` (internal/types/types.go): decode the outbound field,
then the inbound field; fail on the first JSON parse error.  No further
validation of rule contents is performed. -/
def getFirewallRules (fwOutbound fwInbound : FwField) :
    Except ConfigError (List FwRule × List FwRule) :=
  match decodeFwRules fwOutbound with
  | .error e => .error e
  | .ok outbound =>
    match decodeFwRules fwInbound with
    | .error e => .error e
    | .ok inbound => .ok (outbound, inbound)

/-- `types.LighthouseInfo`. -/
structure LighthouseInfo where
  overlayIP : String
  publicHostPort : String
deriving DecidableEq

/-- The `lighthouse` section of the generated config.  For a lighthouse host
the Go map contains only `am_lighthouse`; absent keys are `none`. -/
structure LighthouseSection where
  amLighthouse : Bool
  interval : Option Nat
  hosts : Option (List String)
deriving DecidableEq

/-- Assignment into the Go `map[string][]string` of `buildStaticHostMap`:
replace the binding if the key exists, else append. -/
def insertAssoc : List (String × List String) → String → List String →
    List (String × List String)
  | [], k, v => [(k, v)]
  | (k', v') :: rest, k, v =>
    if k' = k then (k, v) :: rest else (k', v') :: insertAssoc rest k v

/-- `Generator.buildStaticHostMap`: lighthouses get no static host map
(`nil`); other hosts map each lighthouse's overlay IP to the singleton list
of its public endpoint. -/
def buildStaticHostMap (lighthouses : List LighthouseInfo)
    (isLighthouse : Bool) : Option (List (String × List String)) :=
  if isLighthouse then none
  else some (lighthouses.foldl
    (fun m lh => insertAssoc m lh.overlayIP [lh.publicHostPort]) [])

/-- `Generator.buildLighthouseConfig`: `am_lighthouse` only for lighthouses;
`am_lighthouse=false`, `interval=60` and the lighthouse overlay IPs
otherwise. -/
def buildLighthouseConfig (lighthouses : List LighthouseInfo)
    (isLighthouse : Bool) : LighthouseSection :=
  if isLighthouse then
    { amLighthouse := true, interval := none, hosts := none }
  else
    { amLighthouse := false, interval := some 60,
      hosts := some (lighthouses.map LighthouseInfo.overlayIP) }

/-- `Generator.extractPort`: port 0 for non-lighthouses or an empty endpoint,
else the numeric value after the last `:` (`strconv.Atoi` failure, modelled
by `String.toNat?`, also yields 0). -/
def extractPort (publicHostPort : String) (isLighthouse : Bool) : Nat :=
  if isLighthouse = false ∨ publicHostPort = "" then 0
  else
    let parts := publicHostPort.splitOn ":"
    if parts.length < 2 then 0
    else ((parts.getLast?).getD "").toNat?.getD 0

/-- The configuration document assembled by `Generator.GenerateHostConfig`
before YAML marshalling.  The fixed sections (`punchy`, `tun`, `logging`,
`listen.host`) are carried as fields so the document matches the Go map
key-for-key. -/
structure NebulaConfig where
  pkiCa : String
  pkiCert : String
  pkiKey : String
  staticHostMap : Option (List (String × List String))
  lighthouse : LighthouseSection
  listenHost : String
  listenPort : Nat
  punchPunch : Bool
  punchRespond : Bool
  tunDev : String
  tunTxQueue : Nat
  tunMtu : Nat
  logLevel : String
  logFormat : String
  firewallOutbound : List FwRule
  firewallInbound : List FwRule
deriving DecidableEq

/-- `types.HostRecord` — the host record the generator and the sync hooks
read and write.  `firewallOutbound`/`firewallInbound` are the host's firewall
JSON fields consumed by `host.GetFirewallRules()` (the host-based firewall
schema of the host collection). -/
structure HostRecord where
  id : String
  hostname : String
  networkId : String
  overlayIP : String
  groups : String
  isLighthouse : Bool
  publicHostPort : String
  certificate : String
  privateKey : String
  caCertificate : String
  configYAML : String
  firewallOutbound : FwField
  firewallInbound : FwField
  validityYears : Int
  expiresAt : Time
  active : Bool
deriving DecidableEq

/-- `Generator.GenerateHostConfig` (the config generator): parse the host's
firewall rules, fall back to the recommended defaults (outbound: allow all;
inbound: allow ICMP from anywhere), then assemble PKI, peer discovery,
listen socket, fixed tunneling/logging defaults, and the firewall section. -/
def generateHostConfigDoc (host : HostRecord)
    (lighthouses : List LighthouseInfo) : Except ConfigError NebulaConfig :=
  match getFirewallRules host.firewallOutbound host.firewallInbound with
  | .error e => .error e
  | .ok p =>
    let outbound := if p.1.isEmpty then
        [{ port := some "any", proto := some "any", host := some "any",
           groups := none }] else p.1
    let inbound := if p.2.isEmpty then
        [{ port := some "any", proto := some "icmp", host := some "any",
           groups := none }] else p.2
    .ok { pkiCa := host.caCertificate, pkiCert := host.certificate,
          pkiKey := host.privateKey,
          staticHostMap := buildStaticHostMap lighthouses host.isLighthouse,
          lighthouse := buildLighthouseConfig lighthouses host.isLighthouse,
          listenHost := "0.0.0.0",
          listenPort := extractPort host.publicHostPort host.isLighthouse,
          punchPunch := true, punchRespond := true,
          tunDev := "nebula1", tunTxQueue := 500, tunMtu := 1300,
          logLevel := "info", logFormat := "text",
          firewallOutbound := outbound, firewallInbound := inbound }

/-- `yaml.Marshal` of the document, an external serializer: modelled as a
flat injective rendering of the document tree.  No claim inspects the
produced text, only the document structure. -/
def yamlMarshal (c : NebulaConfig) : String :=
  "pki.ca=" ++ c.pkiCa ++ "|pki.cert=" ++ c.pkiCert ++ "|pki.key=" ++
    c.pkiKey ++
  "|static_host_map=" ++
    (match c.staticHostMap with
     | none => "nil"
     | some m => String.intercalate ";"
         (m.map fun p => p.1 ++ ">" ++ String.intercalate "," p.2)) ++
  "|lighthouse=" ++ toString c.lighthouse.amLighthouse ++ "," ++
    toString c.lighthouse.interval ++ "," ++
    (match c.lighthouse.hosts with
     | none => "nil"
     | some hs => String.intercalate ";" hs) ++
  "|listen=" ++ c.listenHost ++ ":" ++ toString c.listenPort ++
  "|punchy=" ++ toString c.punchPunch ++ "," ++ toString c.punchRespond ++
  "|tun=" ++ c.tunDev ++ "," ++ toString c.tunTxQueue ++ "," ++
    toString c.tunMtu ++
  "|logging=" ++ c.logLevel ++ "," ++ c.logFormat ++
  "|firewall.outbound=" ++ String.intercalate ";"
    (c.firewallOutbound.map fun r =>
      (r.port.getD "_") ++ "," ++ (r.proto.getD "_") ++ "," ++
        (r.host.getD "_") ++ "," ++
        (match r.groups with
         | none => "_"
         | some gs => String.intercalate "+" gs)) ++
  "|firewall.inbound=" ++ String.intercalate ";"
    (c.firewallInbound.map fun r =>
      (r.port.getD "_") ++ "," ++ (r.proto.getD "_") ++ "," ++
        (r.host.getD "_") ++ "," ++
        (match r.groups with
         | none => "_"
         | some gs => String.intercalate "+" gs))

/-- `types.NetworkRecord` (the fields the sync path reads). -/
structure NetworkRecord where
  id : String
  name : String
  cidrRange : String
  firewallOutbound : FwField
  firewallInbound : FwField
  active : Bool
deriving DecidableEq

/-- The database state visible to one pass of the host-update hook:
`network` is the result of `FindRecordById` for the record's `network_id`,
`hosts` the contents of the host collection (queried for lighthouses). -/
structure SyncEnv where
  network : Option NetworkRecord
  hosts : List HostRecord
deriving DecidableEq

/-- `sync.Manager.getLighthouses`: all records of the host collection with
this network id, `is_lighthouse = true` and `active = true`, projected to
`LighthouseInfo`. -/
def getLighthouses (hosts : List HostRecord) (networkId : String) :
    List LighthouseInfo :=
  (hosts.filter fun h =>
      h.networkId == networkId && h.isLighthouse && h.active).map
    fun h => { overlayIP := h.overlayIP, publicHostPort := h.publicHostPort }

/-- Errors of `sync.Manager.generateHostConfig`. -/
inductive SyncError where
  | networkNotFound
  | configGen (e : ConfigError)
deriving DecidableEq

/-- `sync.Manager.generateHostConfig` (internal/sync/manager.go): look up the
record's network, query the lighthouses of that network, generate the config
and set ONLY the `config_yaml` field of the record. -/
def generateHostConfigRecord (env : SyncEnv) (record : HostRecord) :
    Except SyncError HostRecord :=
  match env.network with
  | none => .error .networkNotFound
  | some network =>
    match generateHostConfigDoc record (getLighthouses env.hosts network.id) with
    | .error e => .error (.configGen e)
    | .ok cfg => .ok { record with configYAML := yamlMarshal cfg }

/-- One pass of the host-update handler registered by `setupHostHooks`
(`OnRecordAfterUpdateSuccess`, internal/sync/manager.go lines 267-289):
if the event filter allows host-update events (`shouldHandleEvent`; the
default filter allows everything), regenerate the config and `Save` the
record — the boolean result records whether a save (a further write that
itself re-triggers this very handler) was issued.  On a generation error the
handler logs and continues without writing.  There is no inspection of which
fields changed. -/
def hostUpdatePass (shouldHandle : Bool) (env : SyncEnv)
    (record : HostRecord) : HostRecord × Bool :=
  if shouldHandle then
    match generateHostConfigRecord env record with
    | .ok r => (r, true)
    | .error _ => (record, false)
  else (record, false)

/-- `true` iff an `Except` is an `ok`. -/
def isOkE {ε α : Type _} : Except ε α → Bool
  | .ok _ => true
  | .error _ => false

/-- A rule with neither a host target nor a group set, and with port/proto
values no parser would accept. -/
def badRule : FwRule :=
  { port := some "99999xyz", proto := some "bogus", host := none,
    groups := none }

/-- A host whose outbound firewall field holds `badRule`. -/
def c8host : HostRecord :=
  { id := "h8", hostname := "web-08", networkId := "n1",
    overlayIP := "10.128.0.108", groups := "[]", isLighthouse := false,
    publicHostPort := "", certificate := "C8", privateKey := "K8",
    caCertificate := "CA", configYAML := "", firewallOutbound := .rules [badRule],
    firewallInbound := .empty, validityYears := 1, expiresAt := 0,
    active := true }

/-- Concrete network record. -/
def net0 : NetworkRecord :=
  { id := "n1", name := "production", cidrRange := "10.128.0.0/16",
    firewallOutbound := .empty, firewallInbound := .empty, active := true }

/-- Concrete active lighthouse host. -/
def lh0 : HostRecord :=
  { id := "h-lh", hostname := "lighthouse-01", networkId := "n1",
    overlayIP := "10.128.0.1", groups := "[\"lighthouse\"]",
    isLighthouse := true, publicHostPort := "203.0.113.10:4242",
    certificate := "LH-CERT", privateKey := "LH-KEY",
    caCertificate := "CA-PEM", configYAML := "lh-cfg",
    firewallOutbound := .empty, firewallInbound := .empty,
    validityYears := 1, expiresAt := 1000, active := true }

/-- Concrete inactive lighthouse host (filtered out by `getLighthouses`). -/
def lhInactive : HostRecord :=
  { id := "h-lh2", hostname := "lighthouse-02", networkId := "n1",
    overlayIP := "10.128.0.2", groups := "[\"lighthouse\"]",
    isLighthouse := true, publicHostPort := "203.0.113.11:4242",
    certificate := "LH2-CERT", privateKey := "LH2-KEY",
    caCertificate := "CA-PEM", configYAML := "lh2-cfg",
    firewallOutbound := .empty, firewallInbound := .empty,
    validityYears := 1, expiresAt := 1000, active := false }

/-- Concrete regular host before the triggering update. -/
def prevRec : HostRecord :=
  { id := "h1", hostname := "web-01", networkId := "n1",
    overlayIP := "10.128.0.100", groups := "[\"web\"]",
    isLighthouse := false, publicHostPort := "",
    certificate := "CERT-PEM-1", privateKey := "KEY-PEM-1",
    caCertificate := "CA-PEM", configYAML := "cfg-0",
    firewallOutbound := .empty, firewallInbound := .empty,
    validityYears := 1, expiresAt := 1000, active := true }

/-- The same host after a user update that changed only the `groups`
field. -/
def updRec : HostRecord := { prevRec with groups := "[\"web\",\"admin\"]" }

/-- The database state seen by the update handler. -/
def env0 : SyncEnv :=
  { network := some net0, hosts := [lh0, lhInactive, updRec] }

/-- The record the regeneration pass produces for `prevRec` under `env0`. -/
def c10rec : HostRecord :=
  match generateHostConfigRecord env0 prevRec with
  | .ok r => r
  | .error _ => prevRec

/-- The document generated for `updRec` against the lighthouses of `env0`. -/
def c9cfg : NebulaConfig :=
  { pkiCa := "CA-PEM", pkiCert := "CERT-PEM-1", pkiKey := "KEY-PEM-1",
    staticHostMap := some [("10.128.0.1", ["203.0.113.10:4242"])],
    lighthouse :=
      { amLighthouse := false, interval := some 60,
        hosts := some ["10.128.0.1"] },
    listenHost := "0.0.0.0", listenPort := 0,
    punchPunch := true, punchRespond := true,
    tunDev := "nebula1", tunTxQueue := 500, tunMtu := 1300,
    logLevel := "info", logFormat := "text",
    firewallOutbound :=
      [{ port := some "any", proto := some "any", host := some "any",
         groups := none }],
    firewallInbound :=
      [{ port := some "any", proto := some "icmp", host := some "any",
         groups := none }] }

theorem scanOffsets_zero (s : Nat) (u : List Nat) (i : Nat) :
    scanOffsets s u i 0 = none := rfl

theorem scanOffsets_succ (s : Nat) (u : List Nat) (i f : Nat) :
    scanOffsets s u i (f + 1) =
      if ((s + i) % u32) ∈ u then scanOffsets s u (i + 1) f else some i := rfl

/-- What a successful scan returns: the first free offset in the scanned
window. -/
theorem scanOffsets_some {s : Nat} {u : List Nat} :
    ∀ {fuel i j : Nat}, scanOffsets s u i fuel = some j →
      i ≤ j ∧ j < i + fuel ∧ ((s + j) % u32) ∉ u ∧
        ∀ k, i ≤ k → k < j → ((s + k) % u32) ∈ u := by
  intro fuel
  induction fuel with
  | zero =>
    intro i j h
    simp [scanOffsets_zero] at h
  | succ f ih =>
    intro i j h
    rw [scanOffsets_succ] at h
    by_cases hc : ((s + i) % u32) ∈ u
    · rw [if_pos hc] at h
      obtain ⟨h1, h2, h3, h4⟩ := ih h
      refine ⟨by omega, by omega, h3, ?_⟩
      intro k hk1 hk2
      rcases Nat.eq_or_lt_of_le hk1 with hk | hk
      · exact hk ▸ hc
      · exact h4 k hk hk2
    · rw [if_neg hc] at h
      injection h with h
      subst h
      exact ⟨Nat.le_refl _, by omega, hc, by omega⟩

/-- A failed scan means every offset in the window was used. -/
theorem scanOffsets_none {s : Nat} {u : List Nat} :
    ∀ {fuel i : Nat}, scanOffsets s u i fuel = none →
      ∀ k, i ≤ k → k < i + fuel → ((s + k) % u32) ∈ u := by
  intro fuel
  induction fuel with
  | zero =>
    intro i _ k hk1 hk2
    omega
  | succ f ih =>
    intro i h k hk1 hk2
    rw [scanOffsets_succ] at h
    by_cases hc : ((s + i) % u32) ∈ u
    · rw [if_pos hc] at h
      rcases Nat.eq_or_lt_of_le hk1 with hk | hk
      · exact hk ▸ hc
      · exact ih h k hk (by omega)
    · rw [if_neg hc] at h
      exact absurd h (by simp)

/-- The scan succeeds whenever some offset of the window is free. -/
theorem scanOffsets_isSome {s : Nat} {u : List Nat} {fuel i : Nat}
    (h : ∃ j, i ≤ j ∧ j < i + fuel ∧ ((s + j) % u32) ∉ u) :
    ∃ j, scanOffsets s u i fuel = some j := by
  obtain ⟨j, hj1, hj2, hj3⟩ := h
  cases hscan : scanOffsets s u i fuel with
  | none => exact absurd (scanOffsets_none hscan j hj1 hj2) hj3
  | some k => exact ⟨k, rfl⟩

/-- The Go expression `uint32(1 << (32-bits)) - 1` (with its wrap at `/0`)
equals the mathematical `2^(32-bits) - 1` for every prefix length. -/
theorem stop_eq (bits : Nat) (hb : bits ≤ 32) :
    ((2 ^ (32 - bits) % u32) + u32 - 1) % u32 = 2 ^ (32 - bits) - 1 := by
  rcases Nat.eq_zero_or_pos bits with h0 | hpos
  · subst h0
    decide
  · have h32 : 32 - bits < 32 := by omega
    have hS : 2 ^ (32 - bits) < u32 := by
      have h4 : (2 : Nat) ^ (32 - bits) < 2 ^ 32 :=
        Nat.pow_lt_pow_right (by norm_num) h32
      simpa [u32] using h4
    have h1 : 1 ≤ 2 ^ (32 - bits) := Nat.one_le_two_pow
    rw [Nat.mod_eq_of_lt hS]
    have he : 2 ^ (32 - bits) + u32 - 1 = (2 ^ (32 - bits) - 1) + u32 := by omega
    rw [he, Nat.add_mod_right, Nat.mod_eq_of_lt (by omega)]

/-- A successful `NextAvailableIP` never returns an address of the used set. -/
theorem nextAvailableIP_ok_not_used {a bits : Nat} {used : List IPInput}
    {res rb : Nat}
    (h : nextAvailableIP (.cidr4 a bits) used = .ok (res, rb)) :
    res ∉ usedSet used := by
  simp only [nextAvailableIP] at h
  by_cases hg : a < u32 ∧ bits ≤ 32
  · rw [if_pos hg] at h
    cases hscan : scanOffsets a (usedSet used) 1
        (((2 ^ (32 - bits) % u32) + u32 - 1) % u32 - 1) with
    | none =>
      rw [hscan] at h
      exact absurd h (by simp)
    | some i =>
      rw [hscan] at h
      injection h with h
      obtain ⟨_, _, hni, _⟩ := scanOffsets_some hscan
      have hfst : (a + i) % u32 = res := congrArg Prod.fst h
      exact hfst ▸ hni
  · rw [if_neg hg] at h
    exact absurd h (by simp)

/-- C2: for an IPv4 CIDR of prefix length `< 31` whose usable offsets are not
all used, `NextAvailableIP` returns the address at the first free offset in
`[1, size-2]`; the result is not in the used set, is neither the network nor
the broadcast address, and a repeated call with the returned CIDR-annotated
address added to the used list cannot return the same address again. -/
theorem c2_next_available_ip (a bits : Nat) (used : List IPInput)
    (ha : a < u32) (hb : bits < 31)
    (hfree : ∃ i, 1 ≤ i ∧ i ≤ 2 ^ (32 - bits) - 2 ∧
      ((a + i) % u32) ∉ usedSet used) :
    ∃ i0, nextAvailableIP (.cidr4 a bits) used = .ok ((a + i0) % u32, bits) ∧
      1 ≤ i0 ∧ i0 ≤ 2 ^ (32 - bits) - 2 ∧
      ((a + i0) % u32) ∉ usedSet used ∧
      (∀ j, 1 ≤ j → j < i0 → ((a + j) % u32) ∈ usedSet used) ∧
      (a + i0) % u32 ≠ a ∧
      (a + i0) % u32 ≠ (a + (2 ^ (32 - bits) - 1)) % u32 ∧
      nextAvailableIP (.cidr4 a bits)
          (.cidr4 ((a + i0) % u32) bits :: used) ≠
        .ok ((a + i0) % u32, bits) := by
  have hb32 : bits ≤ 32 := by omega
  have hfuel : ((2 ^ (32 - bits) % u32) + u32 - 1) % u32 - 1 =
      2 ^ (32 - bits) - 2 := by
    rw [stop_eq bits hb32]
    omega
  have hS4 : 4 ≤ 2 ^ (32 - bits) := by
    have h2 : 2 ≤ 32 - bits := by omega
    calc (4 : Nat) = 2 ^ 2 := by norm_num
    _ ≤ 2 ^ (32 - bits) := Nat.pow_le_pow_right (by norm_num) h2
  have hSle : 2 ^ (32 - bits) ≤ u32 := by
    have h2 : 32 - bits ≤ 32 := by omega
    have h3 : (2 : Nat) ^ (32 - bits) ≤ 2 ^ 32 :=
      Nat.pow_le_pow_right (by norm_num) h2
    simpa [u32] using h3
  obtain ⟨j, hj1, hj2, hj3⟩ := hfree
  obtain ⟨i0, hscan⟩ := @scanOffsets_isSome a (usedSet used)
    (2 ^ (32 - bits) - 2) 1 ⟨j, hj1, by omega, hj3⟩
  obtain ⟨hi1, hi2, hfree0, hfirst⟩ := scanOffsets_some hscan
  have hi2' : i0 ≤ 2 ^ (32 - bits) - 2 := by omega
  have hu : u32 = 4294967296 := rfl
  refine ⟨i0, ?_, hi1, hi2', hfree0, fun jj hja hjb => hfirst jj hja hjb,
    ?_, ?_, ?_⟩
  · simp only [nextAvailableIP]
    rw [if_pos ⟨ha, hb32⟩, hfuel, hscan]
  · intro hEq
    rw [hu] at hEq
    rw [hu] at ha hSle
    omega
  · intro hEq
    rw [hu] at hEq hSle
    omega
  · intro hok
    have hnot := nextAvailableIP_ok_not_used hok
    have hlt : (a + i0) % u32 < u32 := Nat.mod_lt _ (by decide)
    have hmem : ((a + i0) % u32) ∈
        usedSet (.cidr4 ((a + i0) % u32) bits :: used) := by
      simp [usedSet, List.filterMap_cons, usedEntryAddr, parseAddr4,
        parseCidr4, hlt, hb32]
    exact hnot hmem

/-- C2 witness: `10.0.0.0/24` with offsets 1 and 2 used. -/
theorem c2_next_available_ip_witness :
    ∃ i0, nextAvailableIP (.cidr4 167772160 24) c2used =
        .ok ((167772160 + i0) % u32, 24) ∧
      1 ≤ i0 ∧ i0 ≤ 2 ^ (32 - 24) - 2 ∧
      ((167772160 + i0) % u32) ∉ usedSet c2used ∧
      (∀ j, 1 ≤ j → j < i0 → ((167772160 + j) % u32) ∈ usedSet c2used) ∧
      (167772160 + i0) % u32 ≠ 167772160 ∧
      (167772160 + i0) % u32 ≠ (167772160 + (2 ^ (32 - 24) - 1)) % u32 ∧
      nextAvailableIP (.cidr4 167772160 24)
          (.cidr4 ((167772160 + i0) % u32) 24 :: c2used) ≠
        .ok ((167772160 + i0) % u32, 24) :=
  c2_next_available_ip 167772160 24 c2used (by decide) (by decide)
    ⟨3, by decide, by decide, by decide⟩

/-- C3: `NextAvailableIP` surfaces the exhaustion error for `/31` and `/32`
prefixes, and more generally whenever every candidate offset in `[1, size-2]`
already belongs to the used set. -/
theorem c3_exhaustion (a bits : Nat) (used : List IPInput)
    (ha : a < u32) (hb : bits ≤ 32)
    (h : bits = 31 ∨ bits = 32 ∨
      ∀ i, 1 ≤ i → i ≤ 2 ^ (32 - bits) - 2 → ((a + i) % u32) ∈ usedSet used) :
    nextAvailableIP (.cidr4 a bits) used = .error .exhausted := by
  have hall : ∀ i, 1 ≤ i → i ≤ 2 ^ (32 - bits) - 2 →
      ((a + i) % u32) ∈ usedSet used := by
    rcases h with h | h | h
    · subst h
      intro i h1 h2
      norm_num at h2
      omega
    · subst h
      intro i h1 h2
      norm_num at h2
      omega
    · exact h
  have hfuel : ((2 ^ (32 - bits) % u32) + u32 - 1) % u32 - 1 =
      2 ^ (32 - bits) - 2 := by
    rw [stop_eq bits hb]
    omega
  simp only [nextAvailableIP]
  rw [if_pos ⟨ha, hb⟩, hfuel]
  cases hscan : scanOffsets a (usedSet used) 1 (2 ^ (32 - bits) - 2) with
  | none => rfl
  | some i =>
    obtain ⟨h1, h2, h3, _⟩ := scanOffsets_some hscan
    exact absurd (hall i h1 (by omega)) h3

/-- C3 witness: a `/31` network (`192.168.1.0/31`) with nothing used is
already exhausted. -/
theorem c3_exhaustion_witness :
    nextAvailableIP (.cidr4 3232235776 31) [] = .error .exhausted :=
  c3_exhaustion 3232235776 31 [] (by decide) (by decide) (Or.inl rfl)

/-- On `Int`, Go's `if b < a { x = b }` capping pattern computes `min a b`. -/
theorem ite_lt_eq_min (a b : Int) : (if b < a then b else a) = min a b := by
  rw [min_def]
  split_ifs <;> omega

/-- C1: every successful host-certificate issuance returns
`expiresAt = min(now + requestedValidityYears, CAExpiresAt)`; in particular
the host certificate never outlives its issuing CA. -/
theorem c1_host_expiry_min (params : HostCertParams) (now : Time)
    (kp : KeyPair) (r : HostCertResult)
    (h : generateHostCert params now kp = .ok r) :
    r.expiresAt = min (addDateYears now params.validityYears)
        params.caExpiresAt ∧
      r.expiresAt ≤ params.caExpiresAt := by
  unfold generateHostCert at h
  cases hc : unmarshalCertificateFromPEM params.caCertPEM with
  | none =>
    rw [hc] at h
    exact absurd h (by simp)
  | some caCert =>
    rw [hc] at h
    cases hk : unmarshalSigningPrivateKeyFromPEM params.caPrivateKeyPEM with
    | none =>
      rw [hk] at h
      exact absurd h (by simp)
    | some caKey =>
      rw [hk] at h
      cases hp : parseAddrAny params.overlayIP with
      | none =>
        rw [hp] at h
        exact absurd h (by simp)
      | some addr =>
        rw [hp] at h
        injection h with h
        subst h
        dsimp only
        rw [ite_lt_eq_min]
        exact ⟨rfl, min_le_right _ _⟩

/-- C1 witness: a 1-year request against a CA that expires at `t = 1000` is
capped at the CA expiry. -/
theorem c1_host_expiry_min_witness :
    c1result.expiresAt = min (addDateYears 0 1) c1params.caExpiresAt ∧
      c1result.expiresAt ≤ c1params.caExpiresAt :=
  c1_host_expiry_min c1params 0 ⟨3, 4⟩ c1result (by decide)

/-- C4 counterexample: `GenerateAuthority` over the CIDR `10.128.0.0/16`
produces a CA certificate that embeds that CIDR as a network prefix, so "CA
issuance ... embeds no network prefixes" fails on this issuance path. -/
theorem c4_counterexample :
    (generateAuthority "prod-ca" (.cidr4 176160768 16) 0 ⟨1, 2⟩).map
        (fun art =>
          match unmarshalCertificateFromPEM art.certPEM with
          | some c => c.tbs.networks
          | none => []) =
      .ok [⟨⟨true, 176160768⟩, 16⟩] ∧
    ([⟨⟨true, 176160768⟩, 16⟩] : List IpNet) ≠ [] := by
  exact ⟨by decide, by decide⟩

/-- C4 (amended): both CA issuance paths produce a self-signed certificate
(no issuer, signed with the freshly generated private key, carrying the fresh
public key) with the `IsCA` flag set and no groups; `GenerateCA` embeds no
network prefixes, while the `GenerateAuthority` variant embeds exactly the
parsed network CIDR as its single network prefix. -/
theorem c4_amended :
    (∀ (name : String) (vy : Int) (now : Time) (kp : KeyPair),
      ∃ c, (generateCA name vy now kp).certificatePEM = Pem.cert c ∧
        c.issuer = none ∧ c.signKey = kp.priv ∧ c.tbs.publicKey = kp.pub ∧
        c.tbs.isCA = true ∧ c.tbs.networks = [] ∧ c.tbs.groups = []) ∧
    (∀ (name : String) (cidr : IPInput) (now : Time) (kp : KeyPair)
        (art : Artifacts),
      generateAuthority name cidr now kp = .ok art →
      ∃ c pfx, art.certPEM = Pem.cert c ∧ parseCidrAny cidr = some pfx ∧
        c.issuer = none ∧ c.signKey = kp.priv ∧ c.tbs.publicKey = kp.pub ∧
        c.tbs.isCA = true ∧ c.tbs.networks = [pfx] ∧ c.tbs.groups = []) := by
  constructor
  · intro name vy now kp
    exact ⟨_, rfl, rfl, rfl, rfl, rfl, rfl, rfl⟩
  · intro name cidr now kp art h
    unfold generateAuthority at h
    cases hp : parseCidrAny cidr with
    | none =>
      rw [hp] at h
      exact absurd h (by simp)
    | some pfx =>
      rw [hp] at h
      injection h with h
      subst h
      exact ⟨_, pfx, rfl, rfl, rfl, rfl, rfl, rfl, rfl, rfl⟩

/-- C4 witness: both amended clauses at concrete inputs. -/
theorem c4_amended_witness :
    (∃ c, (generateCA "my-org-ca" 10 0 ⟨1, 2⟩).certificatePEM = Pem.cert c ∧
      c.issuer = none ∧ c.signKey = 2 ∧ c.tbs.publicKey = 1 ∧
      c.tbs.isCA = true ∧ c.tbs.networks = [] ∧ c.tbs.groups = []) ∧
    (∃ c pfx, c4auth.certPEM = Pem.cert c ∧
      parseCidrAny (.cidr4 176160768 16) = some pfx ∧ c.issuer = none ∧
      c.signKey = 2 ∧ c.tbs.publicKey = 1 ∧ c.tbs.isCA = true ∧
      c.tbs.networks = [pfx] ∧ c.tbs.groups = []) :=
  ⟨c4_amended.1 "my-org-ca" 10 0 ⟨1, 2⟩,
   c4_amended.2 "ca2" (.cidr4 176160768 16) 0 ⟨1, 2⟩ c4auth (by decide)⟩

/-- C5 counterexample: `GenerateNode` given the overlay IP string
`10.0.0.5/24` — which does NOT parse as an address — succeeds and embeds the
`/24` prefix as written, not a single-address `/32` prefix.  This contradicts
both halves of the claim (unparseable-as-address inputs must fail; embedded
prefix must be `/32`). -/
theorem c5_counterexample :
    parseAddrAny (IPInput.cidr4 167772165 24) = none ∧
    (generateNode (Pem.cert ca0) (Pem.signingKey 7) "web-01"
        (.cidr4 167772165 24) [] 100 ⟨3, 4⟩).map
        (fun art =>
          match unmarshalCertificateFromPEM art.certPEM with
          | some c => c.tbs.networks
          | none => []) =
      .ok [⟨⟨true, 167772165⟩, 24⟩] ∧
    (⟨⟨true, 167772165⟩, 24⟩ : IpNet).bits ≠ 32 := by
  exact ⟨rfl, by decide, by decide⟩

/-- C5 (amended): `GenerateHostCert` behaves as the claim states — a
parseable overlay address yields a certificate embedding exactly that address
as a single-address prefix (its `BitLen`, i.e. `/32` for IPv4), with the
group list, `IsCA` false and the issuer resolving to the CA; an unparseable
address fails with the invalid-overlay-IP error.  The `GenerateNode` variant
instead requires the overlay IP in CIDR form: it embeds the parsed prefix
unchanged (not reduced to `/32`), and a bare address string fails. -/
theorem c5_amended :
    (∀ (params : HostCertParams) (now : Time) (kp : KeyPair)
        (caCert : Certificate) (caKey : Nat) (addr : Addr),
      unmarshalCertificateFromPEM params.caCertPEM = some caCert →
      unmarshalSigningPrivateKeyFromPEM params.caPrivateKeyPEM = some caKey →
      parseAddrAny params.overlayIP = some addr →
      ∃ r c, generateHostCert params now kp = .ok r ∧
        r.certificatePEM = Pem.cert c ∧
        c.tbs.networks = [⟨addr, addr.bitLen⟩] ∧
        c.tbs.groups = params.groups ∧ c.tbs.isCA = false ∧
        c.issuer = some caCert.tbs ∧ c.signKey = caKey ∧
        c.tbs.publicKey = kp.pub) ∧
    (∀ (params : HostCertParams) (now : Time) (kp : KeyPair)
        (caCert : Certificate) (caKey : Nat),
      unmarshalCertificateFromPEM params.caCertPEM = some caCert →
      unmarshalSigningPrivateKeyFromPEM params.caPrivateKeyPEM = some caKey →
      parseAddrAny params.overlayIP = none →
      generateHostCert params now kp = .error .invalidOverlayIP) ∧
    (∀ (caCertPEM caKeyPEM : Pem) (name : String) (ip : IPInput)
        (groups : List String) (now : Time) (kp : KeyPair) (art : Artifacts),
      generateNode caCertPEM caKeyPEM name ip groups now kp = .ok art →
      ∃ c pfx caCert, art.certPEM = Pem.cert c ∧
        parseCidrAny ip = some pfx ∧ c.tbs.networks = [pfx] ∧
        c.tbs.groups = groups ∧ c.tbs.isCA = false ∧
        unmarshalCertificateFromPEM caCertPEM = some caCert ∧
        c.issuer = some caCert.tbs) ∧
    (∀ (caCertPEM caKeyPEM : Pem) (name : String) (v : Nat)
        (groups : List String) (now : Time) (kp : KeyPair),
      generateNode caCertPEM caKeyPEM name (.addr4 v) groups now kp =
        .error .invalidNodeIP) := by
  refine ⟨?_, ?_, ?_, ?_⟩
  · intro params now kp caCert caKey addr h1 h2 h3
    unfold generateHostCert
    rw [h1, h2, h3]
    exact ⟨_, _, rfl, rfl, rfl, rfl, rfl, rfl, rfl, rfl⟩
  · intro params now kp caCert caKey h1 h2 h3
    unfold generateHostCert
    rw [h1, h2, h3]
  · intro caCertPEM caKeyPEM name ip groups now kp art h
    unfold generateNode at h
    cases hp : parseCidrAny ip with
    | none =>
      rw [hp] at h
      exact absurd h (by simp)
    | some pfx =>
      rw [hp] at h
      cases hk : unmarshalSigningPrivateKeyFromPEM caKeyPEM with
      | none =>
        rw [hk] at h
        exact absurd h (by simp)
      | some caKey =>
        rw [hk] at h
        cases hc : unmarshalCertificateFromPEM caCertPEM with
        | none =>
          rw [hc] at h
          exact absurd h (by simp)
        | some caCert =>
          rw [hc] at h
          dsimp only at h
          by_cases hE : certExpired caCert now = true
          · rw [if_pos hE] at h
            exact absurd h (by simp)
          · rw [if_neg hE] at h
            injection h with h
            subst h
            exact ⟨_, pfx, caCert, rfl, rfl, rfl, rfl, rfl, rfl, rfl⟩
  · intro caCertPEM caKeyPEM name v groups now kp
    rfl

/-- C5 witness: all four amended clauses at concrete inputs. -/
theorem c5_amended_witness :
    (∃ r c, generateHostCert c5params 0 ⟨3, 4⟩ = .ok r ∧
      r.certificatePEM = Pem.cert c ∧
      c.tbs.networks = [⟨⟨true, 176160869⟩, Addr.bitLen ⟨true, 176160869⟩⟩] ∧
      c.tbs.groups = c5params.groups ∧ c.tbs.isCA = false ∧
      c.issuer = some ca0.tbs ∧ c.signKey = 7 ∧ c.tbs.publicKey = 3) ∧
    (generateHostCert c5bad 0 ⟨3, 4⟩ = .error .invalidOverlayIP) ∧
    (∃ c pfx caCert, c5node.certPEM = Pem.cert c ∧
      parseCidrAny (.cidr4 167772166 24) = some pfx ∧
      c.tbs.networks = [pfx] ∧ c.tbs.groups = ["app"] ∧ c.tbs.isCA = false ∧
      unmarshalCertificateFromPEM (Pem.cert ca0) = some caCert ∧
      c.issuer = some caCert.tbs) ∧
    (generateNode (Pem.cert ca0) (Pem.signingKey 7) "app-02" (.addr4 5) []
        100 ⟨3, 4⟩ = .error .invalidNodeIP) :=
  ⟨c5_amended.1 c5params 0 ⟨3, 4⟩ ca0 7 ⟨true, 176160869⟩ (by decide)
      (by decide) (by decide),
   c5_amended.2.1 c5bad 0 ⟨3, 4⟩ ca0 7 (by decide) (by decide) (by decide),
   c5_amended.2.2.1 (Pem.cert ca0) (Pem.signingKey 7) "app-01"
      (.cidr4 167772166 24) ["app"] 100 ⟨3, 4⟩ c5node (by decide),
   c5_amended.2.2.2 (Pem.cert ca0) (Pem.signingKey 7) "app-02" 5 [] 100
      ⟨3, 4⟩⟩

/-- C8 counterexample: a rule that specifies neither a host target nor a
group set (and nonsense port/proto values) is accepted without any
invalid-firewall-rule error, both by `GetFirewallRules` and by the full
config generation — contradicting the claim that such inputs must fail. -/
theorem c8_counterexample :
    badRule.host = none ∧ badRule.groups = none ∧
    getFirewallRules (.rules [badRule]) .empty = .ok ([badRule], []) ∧
    isOkE (generateHostConfigDoc c8host []) = true := by
  exact ⟨rfl, rfl, rfl, by decide⟩

/-- C8 (amended): firewall-rule compilation fails only when a firewall JSON
field fails to unmarshal as an array of rule objects; the contents of the
rules — presence of a host target or group set, port and protocol values —
are never validated, so every syntactically decodable input succeeds. -/
theorem c8_amended :
    (∀ fwOutbound fwInbound : FwField,
      isOkE (getFirewallRules fwOutbound fwInbound) = true ↔
        fwOutbound ≠ FwField.invalid ∧ fwInbound ≠ FwField.invalid) ∧
    (∀ (host : HostRecord) (lighthouses : List LighthouseInfo),
      isOkE (generateHostConfigDoc host lighthouses) = true ↔
        host.firewallOutbound ≠ FwField.invalid ∧
        host.firewallInbound ≠ FwField.invalid) := by
  have hfw : ∀ fwOutbound fwInbound : FwField,
      isOkE (getFirewallRules fwOutbound fwInbound) = true ↔
        fwOutbound ≠ FwField.invalid ∧ fwInbound ≠ FwField.invalid := by
    intro fwOutbound fwInbound
    cases fwOutbound <;> cases fwInbound <;>
      simp [getFirewallRules, decodeFwRules, isOkE]
  refine ⟨hfw, ?_⟩
  intro host lighthouses
  rw [← hfw host.firewallOutbound host.firewallInbound]
  unfold generateHostConfigDoc
  cases hg : getFirewallRules host.firewallOutbound host.firewallInbound with
  | error e => simp [isOkE]
  | ok p => simp [isOkE]

/-- `insertAssoc` with a fresh key appends the binding. -/
theorem insertAssoc_not_mem (m : List (String × List String)) (k : String)
    (v : List String) (h : k ∉ m.map Prod.fst) :
    insertAssoc m k v = m ++ [(k, v)] := by
  induction m with
  | nil => rfl
  | cons p rest ih =>
    obtain ⟨k', v'⟩ := p
    simp only [List.map_cons, List.mem_cons, not_or] at h
    obtain ⟨h1, h2⟩ := h
    simp only [insertAssoc]
    rw [if_neg fun hh => h1 hh.symm, ih h2]
    rfl

/-- Folding `insertAssoc` over lighthouses with pairwise-distinct overlay IPs
(all fresh for the accumulator) appends one binding per lighthouse, in
order. -/
theorem foldl_insertAssoc :
    ∀ (ls : List LighthouseInfo) (acc : List (String × List String)),
      (ls.map LighthouseInfo.overlayIP).Nodup →
      (∀ lh ∈ ls, lh.overlayIP ∉ acc.map Prod.fst) →
      ls.foldl (fun m lh => insertAssoc m lh.overlayIP [lh.publicHostPort])
          acc =
        acc ++ ls.map (fun lh => (lh.overlayIP, [lh.publicHostPort])) := by
  intro ls
  induction ls with
  | nil =>
    intro acc _ _
    simp
  | cons lh rest ih =>
    intro acc hnd hfresh
    simp only [List.map_cons, List.nodup_cons] at hnd
    obtain ⟨hnotin, hnd'⟩ := hnd
    have h1 : lh.overlayIP ∉ acc.map Prod.fst := hfresh lh (by simp)
    have hfresh' : ∀ lh' ∈ rest, lh'.overlayIP ∉
        (insertAssoc acc lh.overlayIP [lh.publicHostPort]).map Prod.fst := by
      intro lh' hmem
      rw [insertAssoc_not_mem acc _ _ h1]
      simp only [List.map_append, List.mem_append, not_or]
      refine ⟨hfresh lh' (by simp [hmem]), ?_⟩
      simp only [List.map_cons, List.map_nil, List.mem_cons,
        List.not_mem_nil, or_false]
      intro hEq
      exact hnotin (hEq ▸ List.mem_map_of_mem LighthouseInfo.overlayIP hmem)
    rw [List.foldl_cons, ih _ hnd' hfresh', insertAssoc_not_mem acc _ _ h1]
    simp

/-- C9: in every generated host configuration, a lighthouse host gets no
static host map (and a lighthouse section with only `am_lighthouse`), while
any other host gets a static host map binding each active lighthouse's
overlay address (as returned by the `getLighthouses` query over the host
collection) to its public endpoint, and a lighthouse section listing exactly
those overlay addresses with the fixed refresh interval 60.  The distinctness
hypothesis on overlay IPs is the data model's per-network uniqueness
invariant. -/
theorem c9_lighthouse_discovery (hosts : List HostRecord)
    (networkId : String) (host : HostRecord) (cfg : NebulaConfig)
    (hgen : generateHostConfigDoc host (getLighthouses hosts networkId) =
      .ok cfg)
    (hnodup : ((getLighthouses hosts networkId).map
      LighthouseInfo.overlayIP).Nodup) :
    (host.isLighthouse = true → cfg.staticHostMap = none ∧
      cfg.lighthouse =
        { amLighthouse := true, interval := none, hosts := none }) ∧
    (host.isLighthouse = false →
      cfg.staticHostMap = some ((getLighthouses hosts networkId).map
        fun lh => (lh.overlayIP, [lh.publicHostPort])) ∧
      cfg.lighthouse =
        { amLighthouse := false, interval := some 60,
          hosts := some ((getLighthouses hosts networkId).map
            LighthouseInfo.overlayIP) }) := by
  unfold generateHostConfigDoc at hgen
  cases hfw : getFirewallRules host.firewallOutbound host.firewallInbound with
  | error e =>
    rw [hfw] at hgen
    exact absurd hgen (by simp)
  | ok p =>
    rw [hfw] at hgen
    dsimp only at hgen
    injection hgen with hgen
    subst hgen
    constructor
    · intro hL
      unfold buildStaticHostMap buildLighthouseConfig
      rw [hL]
      simp
    · intro hL
      unfold buildStaticHostMap buildLighthouseConfig
      rw [hL]
      simp only [Bool.false_eq_true, if_false]
      rw [foldl_insertAssoc _ [] hnodup (by simp)]
      simp

/-- C6, the code evaluated at the failing input: an update that changes only
`groups` flows through the host-update handler, which regenerates the
configuration but re-issues no key pair and no certificate — the stored
certificate and private key after the pass are the ones from before the
update, unchanged. -/
theorem c6_update_keeps_certificate :
    updRec.groups ≠ prevRec.groups ∧
    updRec.certificate = prevRec.certificate ∧
    updRec.privateKey = prevRec.privateKey ∧
    (hostUpdatePass true env0 updRec).1.certificate = prevRec.certificate ∧
    (hostUpdatePass true env0 updRec).1.privateKey = prevRec.privateKey := by
  exact ⟨by decide, rfl, rfl, by decide, by decide⟩

/-- C7, the code evaluated at the failing input: the update handler issues a
save on the first pass, and — fed its own written record — issues another
save on the second pass.  Nothing classifies the second pass as stable; the
handler regenerates and writes unconditionally on every update event. -/
theorem c7_second_pass_writes_again :
    (hostUpdatePass true env0 prevRec).2 = true ∧
    (hostUpdatePass true env0 (hostUpdatePass true env0 prevRec).1).2 =
      true := by
  exact ⟨by decide, by decide⟩

/-- C10: every successful pass of the host-update regeneration path writes
only the `config_yaml` field: all other fields of the host record are
returned unchanged. -/
theorem c10_config_only_write (env : SyncEnv) (record r : HostRecord)
    (h : generateHostConfigRecord env record = .ok r) :
    r.id = record.id ∧ r.hostname = record.hostname ∧
    r.networkId = record.networkId ∧ r.overlayIP = record.overlayIP ∧
    r.groups = record.groups ∧ r.isLighthouse = record.isLighthouse ∧
    r.publicHostPort = record.publicHostPort ∧
    r.certificate = record.certificate ∧ r.privateKey = record.privateKey ∧
    r.caCertificate = record.caCertificate ∧
    r.firewallOutbound = record.firewallOutbound ∧
    r.firewallInbound = record.firewallInbound ∧
    r.validityYears = record.validityYears ∧
    r.expiresAt = record.expiresAt ∧ r.active = record.active := by
  unfold generateHostConfigRecord at h
  cases hn : env.network with
  | none =>
    rw [hn] at h
    exact absurd h (by simp)
  | some network =>
    rw [hn] at h
    dsimp only at h
    cases hg : generateHostConfigDoc record (getLighthouses env.hosts network.id) with
    | error e =>
      rw [hg] at h
      exact absurd h (by simp)
    | ok cfg =>
      rw [hg] at h
      injection h with h
      subst h
      exact ⟨rfl, rfl, rfl, rfl, rfl, rfl, rfl, rfl, rfl, rfl, rfl, rfl,
        rfl, rfl, rfl⟩

/-- C10 witness: the concrete pass preserves every field but
`config_yaml`. -/
theorem c10_config_only_write_witness :
    c10rec.id = prevRec.id ∧ c10rec.hostname = prevRec.hostname ∧
    c10rec.networkId = prevRec.networkId ∧
    c10rec.overlayIP = prevRec.overlayIP ∧
    c10rec.groups = prevRec.groups ∧
    c10rec.isLighthouse = prevRec.isLighthouse ∧
    c10rec.publicHostPort = prevRec.publicHostPort ∧
    c10rec.certificate = prevRec.certificate ∧
    c10rec.privateKey = prevRec.privateKey ∧
    c10rec.caCertificate = prevRec.caCertificate ∧
    c10rec.firewallOutbound = prevRec.firewallOutbound ∧
    c10rec.firewallInbound = prevRec.firewallInbound ∧
    c10rec.validityYears = prevRec.validityYears ∧
    c10rec.expiresAt = prevRec.expiresAt ∧
    c10rec.active = prevRec.active :=
  c10_config_only_write env0 prevRec c10rec (by rfl)

/-- C9 witness: a non-lighthouse host in a network with one active and one
inactive lighthouse gets a one-entry discovery map and lighthouse list. -/
theorem c9_lighthouse_discovery_witness :
    (updRec.isLighthouse = true → c9cfg.staticHostMap = none ∧
      c9cfg.lighthouse =
        { amLighthouse := true, interval := none, hosts := none }) ∧
    (updRec.isLighthouse = false →
      c9cfg.staticHostMap = some ((getLighthouses [lh0, lhInactive, updRec]
          "n1").map fun lh => (lh.overlayIP, [lh.publicHostPort])) ∧
      c9cfg.lighthouse =
        { amLighthouse := false, interval := some 60,
          hosts := some ((getLighthouses [lh0, lhInactive, updRec] "n1").map
            LighthouseInfo.overlayIP) }) :=
  c9_lighthouse_discovery [lh0, lhInactive, updRec] "n1" updRec c9cfg
    (by decide) (by decide)
